import Mathlib

/-!
Verification of the pattern-mining subsystem of the claude-code-audit
repository: the scope/confidence heuristics and response parsing of
`analyzer/classifier.py`, and the normalizers, n-gram extractor and
overlapping-sequence merger of the analyzer's pattern module.
-/

set_option maxRecDepth 10000

/-- The central aggregate entity of the analyzer: a recurring normalized
pattern with its occurrence statistics.  Mirrors the `RawPattern` dataclass
(sets of session/project identifiers become `Finset String`, optional
ISO8601 timestamps become `Option String`). -/
structure RawPattern where
  pattern_type : String
  pattern_key : String
  occurrences : Nat
  sessions : Finset String
  projects : Finset String
  first_seen : Option String
  last_seen : Option String
  examples : List String
  deriving DecidableEq

/-- `compute_scope` from `analyzer/classifier.py`: heuristic recommended
scope for a pattern.  Python's float division and `>=` comparison are
embedded as exact rational arithmetic.  `list(pattern.projects)[0]` for a
one-element set is the unique element, embedded via `theProject`. -/
def theProject (s : Finset String) : String :=
  (s.sort (fun a b => a ≤ b)).headD ""

/-- `compute_scope` from `analyzer/classifier.py`. -/
def compute_scope (pattern : RawPattern) (total_projects : Nat)
    (global_threshold : ℚ) : String :=
  if total_projects = 0 then "global"
  else if global_threshold ≤ (pattern.projects.card : ℚ) / (total_projects : ℚ) then "global"
  else if pattern.projects.card = 1 then "project:" ++ theProject pattern.projects
  else "global"

/-- The Python default value `global_threshold=0.3`. -/
def defaultGlobalThreshold : ℚ := 3 / 10

/-- `compute_confidence` from `analyzer/classifier.py`: tiered confidence
heuristic, first match wins. -/
def compute_confidence (pattern : RawPattern) : String :=
  if 10 ≤ pattern.occurrences ∧ 5 ≤ pattern.sessions.card ∧ 2 ≤ pattern.projects.card
    then "high"
  else if 5 ≤ pattern.occurrences ∧ 3 ≤ pattern.sessions.card then "medium"
  else "low"

/-- A convenience constructor for concrete test patterns. -/
def mkPattern (occurrences : Nat) (sessions projects : Finset String) : RawPattern :=
  { pattern_type := "tool_sequence", pattern_key := "test",
    occurrences := occurrences, sessions := sessions, projects := projects,
    first_seen := none, last_seen := none, examples := [] }

/-- Claim C3: `compute_confidence` returns "high" iff `occurrences >= 10`,
`len(sessions) >= 5` and `len(projects) >= 2`; otherwise "medium" iff
`occurrences >= 5` and `len(sessions) >= 3`; otherwise "low".  The boundary
pattern (10 occurrences, 5 sessions, 2 projects) is "high", and one unit
below any of the three high-tier dimensions drops it out of "high". -/
theorem compute_confidence_spec (p : RawPattern) :
    (compute_confidence p = "high" ↔
      (10 ≤ p.occurrences ∧ 5 ≤ p.sessions.card ∧ 2 ≤ p.projects.card)) ∧
    (¬ (10 ≤ p.occurrences ∧ 5 ≤ p.sessions.card ∧ 2 ≤ p.projects.card) →
      (compute_confidence p = "medium" ↔
        (5 ≤ p.occurrences ∧ 3 ≤ p.sessions.card))) ∧
    (¬ (10 ≤ p.occurrences ∧ 5 ≤ p.sessions.card ∧ 2 ≤ p.projects.card) →
      ¬ (5 ≤ p.occurrences ∧ 3 ≤ p.sessions.card) →
      compute_confidence p = "low") ∧
    compute_confidence
      (mkPattern 10 {"s1", "s2", "s3", "s4", "s5"} {"p1", "p2"}) = "high" ∧
    compute_confidence
      (mkPattern 9 {"s1", "s2", "s3", "s4", "s5"} {"p1", "p2"}) = "medium" ∧
    compute_confidence
      (mkPattern 10 {"s1", "s2", "s3", "s4"} {"p1", "p2"}) = "medium" ∧
    compute_confidence
      (mkPattern 10 {"s1", "s2", "s3", "s4", "s5"} {"p1"}) = "medium" ∧
    compute_confidence (mkPattern 4 {"s1", "s2"} {"p1"}) = "low" := by
  refine ⟨?_, ?_, ?_, by decide, by decide, by decide, by decide, by decide⟩
  · constructor
    · intro hres
      by_contra hc
      unfold compute_confidence at hres
      rw [if_neg hc] at hres
      by_cases hm : 5 ≤ p.occurrences ∧ 3 ≤ p.sessions.card
      · rw [if_pos hm] at hres
        exact absurd hres (by decide)
      · rw [if_neg hm] at hres
        exact absurd hres (by decide)
    · intro hc
      unfold compute_confidence
      rw [if_pos hc]
  · intro h
    unfold compute_confidence
    rw [if_neg h]
    constructor
    · intro hres
      by_contra hc
      rw [if_neg hc] at hres
      exact absurd hres (by decide)
    · intro hc
      rw [if_pos hc]
  · intro h1 h2
    unfold compute_confidence
    rw [if_neg h1, if_neg h2]

/-- Claim C3 witness: the characterization applied at a concrete boundary
pattern. -/
theorem compute_confidence_spec_witness :
    compute_confidence
      (mkPattern 10 {"s1", "s2", "s3", "s4", "s5"} {"p1", "p2"}) = "high" :=
  ((compute_confidence_spec
      (mkPattern 10 {"s1", "s2", "s3", "s4", "s5"} {"p1", "p2"})).1).2
    (by decide)

/-- Claim C4: `compute_scope` returns "global" when `total_projects = 0`;
otherwise "global" when the project fraction reaches `global_threshold`
(equality included); otherwise "project:<that-project>" when the pattern has
exactly one project; otherwise "global". -/
theorem compute_scope_spec (p : RawPattern) (tp : Nat) (gt : ℚ) :
    (tp = 0 → compute_scope p tp gt = "global") ∧
    (tp ≠ 0 → gt ≤ (p.projects.card : ℚ) / (tp : ℚ) →
      compute_scope p tp gt = "global") ∧
    (tp ≠ 0 → (p.projects.card : ℚ) / (tp : ℚ) < gt →
      ∀ x, p.projects = {x} → compute_scope p tp gt = "project:" ++ x) ∧
    (tp ≠ 0 → (p.projects.card : ℚ) / (tp : ℚ) < gt → p.projects.card ≠ 1 →
      compute_scope p tp gt = "global") := by
  refine ⟨?_, ?_, ?_, ?_⟩
  · intro h
    unfold compute_scope
    rw [if_pos h]
  · intro h hle
    unfold compute_scope
    rw [if_neg h, if_pos hle]
  · intro h hlt x hx
    have hcard : p.projects.card = 1 := by
      rw [hx]
      exact Finset.card_singleton x
    unfold compute_scope
    rw [if_neg h, if_neg (not_le.mpr hlt), if_pos hcard]
    unfold theProject
    rw [hx, Finset.sort_singleton]
    rfl
  · intro h hlt hne
    unfold compute_scope
    rw [if_neg h, if_neg (not_le.mpr hlt), if_neg hne]

/-- Claim C4 witness: a single-project pattern among 4 total projects at the
default threshold (1/4 < 3/10) is scoped to that project. -/
theorem compute_scope_spec_witness :
    compute_scope (mkPattern 1 ∅ {"p1"}) 4 (3 / 10) = "project:p1" :=
  (compute_scope_spec (mkPattern 1 ∅ {"p1"}) 4 (3 / 10)).2.2.1
    (by decide) (by norm_num [mkPattern]) "p1" rfl

/-- Claim C5 counterexample: a pattern with exactly one project and the
positive `total_projects = 3` at the default threshold 0.3: the fraction
`1/3` reaches the global branch first, so the result is "global" rather than
"project:p1". -/
theorem compute_scope_single_project_counterexample :
    (mkPattern 10 ∅ {"p1"}).projects = {"p1"} ∧ 0 < 3 ∧
    compute_scope (mkPattern 10 ∅ {"p1"}) 3 defaultGlobalThreshold = "global" ∧
    compute_scope (mkPattern 10 ∅ {"p1"}) 3 defaultGlobalThreshold ≠
      "project:p1" := by
  have hcard : (mkPattern 10 ∅ {"p1"}).projects.card = 1 := by
    simp [mkPattern]
  have hle : defaultGlobalThreshold ≤
      ((mkPattern 10 ∅ {"p1"}).projects.card : ℚ) / ((3 : Nat) : ℚ) := by
    rw [hcard]
    unfold defaultGlobalThreshold
    norm_num
  have hres : compute_scope (mkPattern 10 ∅ {"p1"}) 3 defaultGlobalThreshold =
      "global" := by
    unfold compute_scope
    rw [if_neg (by norm_num), if_pos hle]
  refine ⟨rfl, by norm_num, hres, ?_⟩
  rw [hres]
  decide

/-- Claim C5 (amended): a pattern whose project set is exactly `{x}` is scoped
to "project:x" at the default threshold for every positive `total_projects`
whose reciprocal stays below the threshold (that is, `total_projects ≥ 4`);
for smaller totals the global-fraction branch fires first. -/
theorem compute_scope_single_project (p : RawPattern) (x : String) (tp : Nat)
    (hx : p.projects = {x}) (h0 : 0 < tp)
    (hfrac : (1 : ℚ) / (tp : ℚ) < defaultGlobalThreshold) :
    compute_scope p tp defaultGlobalThreshold = "project:" ++ x := by
  have hcard : p.projects.card = 1 := by
    rw [hx]
    exact Finset.card_singleton x
  have hle : ¬ defaultGlobalThreshold ≤ (p.projects.card : ℚ) / (tp : ℚ) := by
    rw [hcard]
    push_cast
    exact not_le.mpr hfrac
  unfold compute_scope
  rw [if_neg (Nat.pos_iff_ne_zero.mp h0), if_neg hle, if_pos hcard]
  unfold theProject
  rw [hx, Finset.sort_singleton]
  rfl

/-- Claim C5 witness: the amended statement at a concrete single-project
pattern with 10 total projects. -/
theorem compute_scope_single_project_witness :
    compute_scope (mkPattern 2 ∅ {"alpha"}) 10 defaultGlobalThreshold =
      "project:alpha" :=
  compute_scope_single_project (mkPattern 2 ∅ {"alpha"}) "alpha" 10 rfl
    (by decide) (by norm_num [defaultGlobalThreshold])

/-- Character-list test: does `pre` begin `s`?  Embeds Python's
`str.startswith` on the byte/character level. -/
def strStartsWith (s pre : String) : Bool :=
  List.isPrefixOf pre.data s.data

/-- Contiguous-sublist test on character lists. -/
def charsInfix (needle : List Char) : List Char → Bool
  | [] => needle.isEmpty
  | c :: t => List.isPrefixOf needle (c :: t) || charsInfix needle t

/-- Embeds Python's `needle in hay` substring containment. -/
def strContainsSub (hay needle : String) : Bool :=
  charsInfix needle.data hay.data

/-- A pattern wrapped with its LLM-generated classification: the
`ClassifiedPattern` dataclass of `analyzer/classifier.py`. -/
structure ClassifiedPattern where
  raw_pattern : RawPattern
  category : String
  scope : String
  confidence : String
  reasoning : String
  suggested_name : String
  suggested_content : String
  deriving DecidableEq

/-- One entry of the response's `classifications` list: a JSON dictionary
whose fields may each be absent (`item.get(...)` in the Python source). -/
structure ClassificationItem where
  pattern_key : Option String
  category : Option String
  scope : Option String
  confidence : Option String
  pattern_type : Option String
  occurrences : Option Nat
  reasoning : Option String
  suggested_name : Option String
  suggested_content : Option String
  deriving DecidableEq

/-- Exact dictionary lookup `raw_patterns_by_key.get(pattern_key)`; the
Python dict is embedded as an insertion-ordered association list. -/
def lookupKey (m : List (String × RawPattern)) (k : String) : Option RawPattern :=
  (m.find? (fun kv => kv.1 == k)).map (fun kv => kv.2)

/-- The close-match scan of `parse_classification_response`: the first entry
whose key contains the response's key or is contained in it. -/
def findCloseMatch (m : List (String × RawPattern)) (k : String) :
    Option RawPattern :=
  (m.find? (fun kv => strContainsSub kv.1 k || strContainsSub k kv.1)).map
    (fun kv => kv.2)

/-- The placeholder `RawPattern` fabricated when no known pattern matches the
response's `pattern_key` (dataclass defaults fill the remaining fields). -/
def placeholderPattern (item : ClassificationItem) : RawPattern :=
  { pattern_type := item.pattern_type.getD "unknown",
    pattern_key := item.pattern_key.getD "",
    occurrences := item.occurrences.getD 0,
    sessions := ∅, projects := ∅,
    first_seen := none, last_seen := none, examples := [] }

/-- Category validation of `parse_classification_response`: unrecognized
values are replaced by "claude_md". -/
def normCategory (c : String) : String :=
  if c = "skill" ∨ c = "claude_md" ∨ c = "hook" then c else "claude_md"

/-- Scope validation: anything that is not "global" and does not start with
"project:" or "subdir:" is replaced by "global". -/
def normScope (s : String) : String :=
  if s = "global" ∨ strStartsWith s "project:" = true ∨
      strStartsWith s "subdir:" = true
    then s else "global"

/-- Confidence validation: unrecognized values are replaced by "low". -/
def normConfidence (c : String) : String :=
  if c = "high" ∨ c = "medium" ∨ c = "low" then c else "low"

/-- Raw-pattern resolution of `parse_classification_response`: exact key
match, then first substring match, then a fabricated placeholder. -/
def resolvePattern (m : List (String × RawPattern))
    (item : ClassificationItem) : RawPattern :=
  ((lookupKey m (item.pattern_key.getD "")).orElse
      (fun _ => findCloseMatch m (item.pattern_key.getD ""))).getD
    (placeholderPattern item)

/-- The per-item body of the loop in `parse_classification_response`. -/
def classifyItem (m : List (String × RawPattern))
    (item : ClassificationItem) : ClassifiedPattern :=
  { raw_pattern := resolvePattern m item,
    category := normCategory (item.category.getD "claude_md"),
    scope := normScope (item.scope.getD "global"),
    confidence := normConfidence (item.confidence.getD "low"),
    reasoning := item.reasoning.getD "",
    suggested_name := item.suggested_name.getD "",
    suggested_content := item.suggested_content.getD "" }

/-- `parse_classification_response` from `analyzer/classifier.py`:
one `ClassifiedPattern` per entry of the `classifications` list. -/
def parse_classification_response (classifications : List ClassificationItem)
    (m : List (String × RawPattern)) : List ClassifiedPattern :=
  classifications.map (classifyItem m)

/-- A concrete response item with an unknown key, an invalid category and an
invalid confidence, mirroring the validation tests. -/
def testResponseItem : ClassificationItem :=
  { pattern_key := some "test", category := some "invalid_category",
    scope := some "global", confidence := some "very_high",
    pattern_type := none, occurrences := none, reasoning := none,
    suggested_name := none, suggested_content := none }

/-- Claim C10: `parse_classification_response` returns one classified pattern
per response entry; every result's category is one of skill/claude_md/hook,
its scope is "global" or starts with "project:" or "subdir:", and its
confidence is one of high/medium/low; an entry whose key matches no known
pattern exactly or by substring containment gets a fabricated placeholder
raw pattern instead of being dropped. -/
theorem parse_classification_response_spec
    (classifications : List ClassificationItem)
    (m : List (String × RawPattern)) :
    (parse_classification_response classifications m).length =
      classifications.length ∧
    (∀ cp ∈ parse_classification_response classifications m,
      (cp.category = "skill" ∨ cp.category = "claude_md" ∨ cp.category = "hook") ∧
      (cp.scope = "global" ∨ strStartsWith cp.scope "project:" = true ∨
        strStartsWith cp.scope "subdir:" = true) ∧
      (cp.confidence = "high" ∨ cp.confidence = "medium" ∨
        cp.confidence = "low")) ∧
    (∀ i item, classifications.get? i = some item →
      lookupKey m (item.pattern_key.getD "") = none →
      findCloseMatch m (item.pattern_key.getD "") = none →
      (parse_classification_response classifications m).get? i =
        some (classifyItem m item) ∧
      (classifyItem m item).raw_pattern = placeholderPattern item) := by
  refine ⟨List.length_map _ _, ?_, ?_⟩
  · intro cp hcp
    rw [parse_classification_response, List.mem_map] at hcp
    obtain ⟨item, -, rfl⟩ := hcp
    refine ⟨?_, ?_, ?_⟩
    · show normCategory _ = "skill" ∨ normCategory _ = "claude_md" ∨
        normCategory _ = "hook"
      unfold normCategory
      split
      · assumption
      · right
        left
        rfl
    · show normScope _ = "global" ∨ strStartsWith (normScope _) "project:" = true ∨
        strStartsWith (normScope _) "subdir:" = true
      unfold normScope
      split
      · assumption
      · left
        rfl
    · show normConfidence _ = "high" ∨ normConfidence _ = "medium" ∨
        normConfidence _ = "low"
      unfold normConfidence
      split
      · assumption
      · right
        right
        rfl
  · intro i item hi hexact hclose
    constructor
    · rw [parse_classification_response, List.get?_map, hi]
      rfl
    · show resolvePattern m item = placeholderPattern item
      unfold resolvePattern
      rw [hexact]
      show (findCloseMatch m _).getD _ = _
      rw [hclose]
      rfl

/-- Claim C10 witness: the specification applied to a single-item response
whose key matches nothing and whose category/confidence are invalid, against
an empty pattern map. -/
theorem parse_classification_response_spec_witness :
    (parse_classification_response [testResponseItem] []).length = 1 ∧
    (parse_classification_response [testResponseItem] []).get? 0 =
      some (classifyItem [] testResponseItem) ∧
    (classifyItem [] testResponseItem).raw_pattern =
      placeholderPattern testResponseItem ∧
    (classifyItem [] testResponseItem).category = "claude_md" ∧
    (classifyItem [] testResponseItem).confidence = "low" :=
  ⟨(parse_classification_response_spec [testResponseItem] []).1,
    ((parse_classification_response_spec [testResponseItem] []).2.2 0
      testResponseItem rfl rfl rfl).1,
    ((parse_classification_response_spec [testResponseItem] []).2.2 0
      testResponseItem rfl rfl rfl).2,
    by decide, by decide⟩

/-- The opening-brace character of a JSON object. -/
def lbrace : Char := Char.ofNat 123

/-- The closing-brace character of a JSON object. -/
def rbrace : Char := Char.ofNat 125

/-- Drop leading whitespace characters. -/
def jsonSkipWs : List Char → List Char
  | [] => []
  | c :: t => if c.isWhitespace then jsonSkipWs t else c :: t

/-- Translate a backslash-escaped character of a JSON string. -/
def jsonUnescape (c : Char) : Char :=
  if c = 'n' then Char.ofNat 10 else if c = 't' then Char.ofNat 9 else c

/-- Parse the body of a JSON string (the opening quote already consumed),
returning its characters and the remaining input. -/
def jsonStringBody : List Char → Option (List Char × List Char)
  | [] => none
  | c :: t =>
    if c = '"' then some ([], t)
    else if c = '\\' then
      match t with
      | [] => none
      | e :: t2 => (jsonStringBody t2).map (fun r => (jsonUnescape e :: r.1, r.2))
    else (jsonStringBody t).map (fun r => (c :: r.1, r.2))

/-- Parse the `"key": "value"` pairs of a flat JSON object, after the opening
brace; fuel-bounded recursion. -/
def jsonParsePairs : Nat → List Char → Option (List (String × String))
  | 0, _ => none
  | fuel + 1, cs =>
    match jsonSkipWs cs with
    | [] => none
    | c :: rest =>
      if c = '"' then
        match jsonStringBody rest with
        | none => none
        | some (key, rest2) =>
          match jsonSkipWs rest2 with
          | ':' :: rest3 =>
            match jsonSkipWs rest3 with
            | '"' :: rest4 =>
              match jsonStringBody rest4 with
              | none => none
              | some (val, rest5) =>
                match jsonSkipWs rest5 with
                | [] => none
                | c5 :: rest6 =>
                  if c5 = ',' then
                    (jsonParsePairs fuel rest6).map
                      (fun ps => (String.mk key, String.mk val) :: ps)
                  else if c5 = rbrace then
                    if (jsonSkipWs rest6).isEmpty then
                      some [(String.mk key, String.mk val)]
                    else none
                  else none
            | _ => none
          | _ => none
      else none

/-- Parse a flat JSON object with string values into an association list;
`none` models a `json.loads` failure. -/
def jsonParseObj (s : String) : Option (List (String × String)) :=
  match jsonSkipWs s.data with
  | [] => none
  | c :: rest =>
    if c = lbrace then
      match jsonSkipWs rest with
      | [] => none
      | c2 :: rest2 =>
        if c2 = rbrace then
          if (jsonSkipWs rest2).isEmpty then some [] else none
        else jsonParsePairs (rest.length + 1) rest
    else none

/-- Split into maximal runs of non-whitespace characters (Python
`str.split()` with no separator); `acc` holds the current token reversed. -/
def splitWsAux : List Char → List Char → List String
  | [], acc => if acc.isEmpty then [] else [String.mk acc.reverse]
  | c :: t, acc =>
    if c.isWhitespace then
      if acc.isEmpty then splitWsAux t []
      else String.mk acc.reverse :: splitWsAux t []
    else splitWsAux t (c :: acc)

/-- The whitespace tokens of a string. -/
def wsTokens (s : String) : List String :=
  splitWsAux s.data []

/-- Keep only what follows the last path separator, so that `/usr/bin/git`
reduces to `git`. -/
def basenameAux : List Char → List Char → List Char
  | [], acc => acc.reverse
  | c :: t, acc => if c = '/' then basenameAux t [] else basenameAux t (c :: acc)

/-- Strip any path prefix from a command name. -/
def stripPathPrefix (s : String) : String :=
  String.mk (basenameAux s.data [])

/-- A token looks like a filesystem path or URL when it contains a slash
(URLs always carry `://`). -/
def looksLikePathOrUrl (s : String) : Bool :=
  s.data.any (fun c => c = '/')

/-- A second token is treated as a subcommand when it is not a flag and not
path/URL-looking; the rule is purely positional, with no allowlist of base
commands. -/
def isSubcommandToken (s : String) : Bool :=
  !(strStartsWith s "-") && !(looksLikePathOrUrl s)

/-- Modelled from the spec: `normalize_bash_command` of the analyzer's
pattern module (`analyzer/patterns.py` is absent from the sources; only its
tests and importers remain).  Parses the JSON payload; if parsing fails or
the `command` field is missing or empty, returns "unknown"; otherwise takes
the first whitespace token as the base command (path prefix stripped) and
hyphen-appends the second token exactly when it qualifies as a
subcommand. -/
def commandField (pairs : List (String × String)) : Option String :=
  (pairs.find? (fun kv => kv.1 == "command")).map (fun kv => kv.2)

/-- Normalization of a non-empty command string: path-stripped first token,
hyphen-joined with a qualifying subcommand token. -/
def normalizeCommandString (cmd : String) : String :=
  if cmd = "" then "unknown"
  else
    match wsTokens cmd with
    | [] => "unknown"
    | [base] => stripPathPrefix base
    | base :: sub :: _ =>
      if isSubcommandToken sub = true then
        stripPathPrefix base ++ "-" ++ sub
      else stripPathPrefix base

def normalize_bash_command (raw : String) : String :=
  match jsonParseObj raw with
  | none => "unknown"
  | some pairs =>
    match commandField pairs with
    | none => "unknown"
    | some cmd => normalizeCommandString cmd

/-- Claim C8: `normalize_bash_command` returns "unknown" when the input is
not parseable JSON or the `command` field is missing or empty; otherwise it
returns the command's path-stripped first token, hyphen-joined with the
second token exactly when that token neither starts with "-" nor looks like
a path or URL — uniformly for any base command, with no allowlist.  The four
examples of the spec evaluate as stated. -/
theorem normalize_bash_command_spec :
    (∀ raw, jsonParseObj raw = none →
      normalize_bash_command raw = "unknown") ∧
    (∀ raw pairs, jsonParseObj raw = some pairs → commandField pairs = none →
      normalize_bash_command raw = "unknown") ∧
    (∀ raw pairs, jsonParseObj raw = some pairs →
      commandField pairs = some "" →
      normalize_bash_command raw = "unknown") ∧
    (∀ raw pairs cmd base sub rest, jsonParseObj raw = some pairs →
      commandField pairs = some cmd → cmd ≠ "" →
      wsTokens cmd = base :: sub :: rest →
      normalize_bash_command raw =
        (if isSubcommandToken sub = true
          then stripPathPrefix base ++ "-" ++ sub
          else stripPathPrefix base)) ∧
    (∀ raw pairs cmd base, jsonParseObj raw = some pairs →
      commandField pairs = some cmd → cmd ≠ "" → wsTokens cmd = [base] →
      normalize_bash_command raw = stripPathPrefix base) ∧
    normalize_bash_command "\x7b\"command\": \"git status\"\x7d" =
      "git-status" ∧
    normalize_bash_command "\x7b\"command\": \"git --version\"\x7d" = "git" ∧
    normalize_bash_command "\x7b\"command\": \"git /path/to/repo\"\x7d" =
      "git" ∧
    normalize_bash_command "\x7b\"command\": \"/usr/bin/git status\"\x7d" =
      "git-status" ∧
    normalize_bash_command "not json" = "unknown" := by
  refine ⟨?_, ?_, ?_, ?_, ?_, by decide, by decide, by decide, by decide,
    by decide⟩
  · intro raw h
    unfold normalize_bash_command
    rw [h]
  · intro raw pairs h1 h2
    unfold normalize_bash_command
    rw [h1]
    show (match commandField pairs with
      | none => "unknown"
      | some cmd => normalizeCommandString cmd) = "unknown"
    rw [h2]
  · intro raw pairs h1 h2
    unfold normalize_bash_command
    rw [h1]
    show (match commandField pairs with
      | none => "unknown"
      | some cmd => normalizeCommandString cmd) = "unknown"
    rw [h2]
    rfl
  · intro raw pairs cmd base sub rest h1 h2 hne htoks
    unfold normalize_bash_command
    rw [h1]
    show (match commandField pairs with
      | none => "unknown"
      | some cmd => normalizeCommandString cmd) = _
    rw [h2]
    show normalizeCommandString cmd = _
    unfold normalizeCommandString
    rw [if_neg hne, htoks]
  · intro raw pairs cmd base h1 h2 hne htoks
    unfold normalize_bash_command
    rw [h1]
    show (match commandField pairs with
      | none => "unknown"
      | some cmd => normalizeCommandString cmd) = _
    rw [h2]
    show normalizeCommandString cmd = _
    unfold normalizeCommandString
    rw [if_neg hne, htoks]

/-- Claim C8 witness: the subcommand rule applied to a base command outside
any git/npm/docker allowlist. -/
theorem normalize_bash_command_spec_witness :
    normalize_bash_command "\x7b\"command\": \"terraform plan\"\x7d" =
      "terraform-plan" :=
  (normalize_bash_command_spec.2.2.2.1
      "\x7b\"command\": \"terraform plan\"\x7d"
      [("command", "terraform plan")] "terraform plan" "terraform" "plan" []
      (by decide) (by decide) (by decide) (by decide)).trans (by decide)

/-- A tool invocation record as consumed by the extractor: name, opaque JSON
payload, ISO8601 timestamp. -/
structure ToolCall where
  tool_name : String
  input_json : String
  timestamp : String
  deriving DecidableEq

/-- Modelled from the spec: `normalize_tool_name` of the analyzer's pattern
module (absent from the sources).  Non-shell tools keep their name; the
shell tool becomes "Bash:<normalized command>". -/
def normalize_tool_name (tc : ToolCall) : String :=
  if tc.tool_name = "Bash" then "Bash:" ++ normalize_bash_command tc.input_json
  else tc.tool_name

/-- Timestamp comparison used for ordering tool calls: lexicographic on the
character sequence (sufficient for same-format ISO8601 strings). -/
def tsLE (a b : ToolCall) : Prop :=
  a.timestamp.data ≤ b.timestamp.data

instance : DecidableRel tsLE :=
  fun a b => inferInstanceAs (Decidable (a.timestamp.data ≤ b.timestamp.data))

instance : IsTotal ToolCall tsLE :=
  ⟨fun a b => le_total a.timestamp.data b.timestamp.data⟩

instance : IsTrans ToolCall tsLE :=
  ⟨fun a b c h1 h2 => le_trans (α := List Char) h1 h2⟩

/-- The stable ascending-by-timestamp sort of the extractor. -/
def sortByTimestamp (l : List ToolCall) : List ToolCall :=
  List.insertionSort tsLE l

/-- Every contiguous sliding window of length 3 over a list. -/
def windows3 {α : Type} : List α → List (α × α × α)
  | a :: b :: c :: t => (a, b, c) :: windows3 (b :: c :: t)
  | _ => []

/-- The timestamp-ordered normalized token sequence of a session's tool
calls. -/
def normalizedSeq (tool_calls : List ToolCall) : List String :=
  (sortByTimestamp tool_calls).map normalize_tool_name

/-- Modelled from the spec: `extract_tool_sequences` of the analyzer's
pattern module (absent from the sources).  Orders the calls ascending by
timestamp with a stable sort, normalizes each name, and emits every
contiguous 3-gram window. -/
def extract_tool_sequences (tool_calls : List ToolCall) :
    List (String × String × String) :=
  windows3 (normalizedSeq tool_calls)

/-- The number of length-3 windows over a list of length `k` is `k - 2`
(truncated subtraction, so 0 for `k < 3`). -/
theorem windows3_length {α : Type} :
    ∀ l : List α, (windows3 l).length = l.length - 2
  | [] => rfl
  | [_] => rfl
  | [_, _] => rfl
  | a :: b :: c :: t => by
    show (windows3 (a :: b :: c :: t)).length = _
    have ih := windows3_length (b :: c :: t)
    rw [windows3]
    simp only [List.length_cons] at ih ⊢
    omega

/-- Window `i` of `windows3 l` is `(l[i], l[i+1], l[i+2])`. -/
theorem windows3_get? {α : Type} :
    ∀ (l : List α) (i : Nat) (a b c : α), l.get? i = some a →
      l.get? (i + 1) = some b → l.get? (i + 2) = some c →
      (windows3 l).get? i = some (a, b, c)
  | [], i, a, b, c, h1, _, _ => by simp at h1
  | [x], i, a, b, c, _, h2, _ => by
    have := (List.get?_eq_some.mp h2).1
    simp at this
  | [x, y], i, a, b, c, _, _, h3 => by
    have := (List.get?_eq_some.mp h3).1
    simp at this
  | x :: y :: z :: t, 0, a, b, c, h1, h2, h3 => by
    simp only [List.get?] at h1 h2 h3
    rw [windows3]
    simp only [List.get?, Option.some.injEq] at h1 h2 h3 ⊢
    rw [h1, h2, h3]
  | x :: y :: z :: t, i + 1, a, b, c, h1, h2, h3 => by
    rw [windows3]
    show (windows3 (y :: z :: t)).get? i = some (a, b, c)
    exact windows3_get? (y :: z :: t) i a b c h1 h2 h3

/-- Claim C6: for `k` tool calls, `extract_tool_sequences` returns exactly
`max(0, k-2)` windows (truncated subtraction), the empty list for `k < 3`,
and window `i` is `(normalized[i], normalized[i+1], normalized[i+2])` over
the timestamp-ordered normalized sequence. -/
theorem extract_tool_sequences_spec (tool_calls : List ToolCall) :
    (extract_tool_sequences tool_calls).length = tool_calls.length - 2 ∧
    (tool_calls.length < 3 → extract_tool_sequences tool_calls = []) ∧
    (∀ i a b c, (normalizedSeq tool_calls).get? i = some a →
      (normalizedSeq tool_calls).get? (i + 1) = some b →
      (normalizedSeq tool_calls).get? (i + 2) = some c →
      (extract_tool_sequences tool_calls).get? i = some (a, b, c)) := by
  have hlen : (normalizedSeq tool_calls).length = tool_calls.length := by
    unfold normalizedSeq sortByTimestamp
    rw [List.length_map]
    exact (List.perm_insertionSort tsLE tool_calls).length_eq
  refine ⟨?_, ?_, ?_⟩
  · unfold extract_tool_sequences
    rw [windows3_length, hlen]
  · intro hk
    have h0 : (extract_tool_sequences tool_calls).length = 0 := by
      unfold extract_tool_sequences
      rw [windows3_length, hlen]
      omega
    exact List.length_eq_zero.mp h0
  · intro i a b c h1 h2 h3
    exact windows3_get? _ i a b c h1 h2 h3

/-- The four-call session of the extraction tests. -/
def testCalls : List ToolCall :=
  [⟨"Read", "", "2025-01-01T10:00:00Z"⟩,
   ⟨"Edit", "", "2025-01-01T10:00:01Z"⟩,
   ⟨"Write", "", "2025-01-01T10:00:02Z"⟩,
   ⟨"Bash", "\x7b\"command\": \"git status\"\x7d", "2025-01-01T10:00:03Z"⟩]

/-- Claim C6 witness: the window specification applied at the concrete
four-call session. -/
theorem extract_tool_sequences_spec_witness :
    (extract_tool_sequences testCalls).length = 2 ∧
    (extract_tool_sequences testCalls).get? 0 =
      some ("Read", "Edit", "Write") ∧
    (extract_tool_sequences testCalls).get? 1 =
      some ("Edit", "Write", "Bash:git-status") :=
  ⟨(extract_tool_sequences_spec testCalls).1,
   (extract_tool_sequences_spec testCalls).2.2 0 _ _ _
     (by decide) (by decide) (by decide),
   (extract_tool_sequences_spec testCalls).2.2 1 _ _ _
     (by decide) (by decide) (by decide)⟩

/-- Two sorted lists of tool calls that are permutations of each other and
have pairwise-distinct timestamps are equal. -/
theorem sorted_perm_eq_of_nodup_ts :
    ∀ (l1 l2 : List ToolCall), l1.Perm l2 → l1.Sorted tsLE → l2.Sorted tsLE →
      (l1.map ToolCall.timestamp).Nodup → l1 = l2
  | [], l2, hp, _, _, _ => hp.nil_eq
  | a :: t, l2, hp, hs1, hs2, hnd => by
    cases l2 with
    | nil =>
      exact absurd hp.symm.nil_eq (by simp)
    | cons b t2 =>
      rw [List.map_cons] at hnd
      obtain ⟨hnd1, hnd2⟩ := List.nodup_cons.mp hnd
      by_cases hab : a = b
      · subst hab
        have ht : t.Perm t2 := hp.cons_inv
        have := sorted_perm_eq_of_nodup_ts t t2 ht hs1.of_cons hs2.of_cons hnd2
        rw [this]
      · exfalso
        have ha2 : a ∈ b :: t2 := hp.subset (List.mem_cons_self a t)
        have hb1 : b ∈ a :: t := hp.symm.subset (List.mem_cons_self b t2)
        have ha2t : a ∈ t2 := by
          rcases List.mem_cons.mp ha2 with h | h
          · exact absurd h hab
          · exact h
        have hb1t : b ∈ t := by
          rcases List.mem_cons.mp hb1 with h | h
          · exact absurd h.symm hab
          · exact h
        have h1 : tsLE a b := (List.sorted_cons.mp hs1).1 b hb1t
        have h2 : tsLE b a := (List.sorted_cons.mp hs2).1 a ha2t
        have hts : a.timestamp = b.timestamp := by
          have hdata : a.timestamp.data = b.timestamp.data := le_antisymm h1 h2
          cases ha : a.timestamp with
          | mk da =>
            cases hb : b.timestamp with
            | mk db =>
              rw [ha, hb] at hdata
              simp only at hdata
              rw [hdata]
        exact hnd1 (hts ▸ List.mem_map_of_mem ToolCall.timestamp hb1t)

/-- Claim C7 counterexample: two permutations of the same three calls, two of
which share a timestamp.  The stable sort keeps the differing original
relative orders of the tied calls, so the two outputs differ even though the
permutation preserves every call's timestamp. -/
theorem extract_tool_sequences_perm_counterexample :
    List.Perm
      [(⟨"Read", "", "2025-01-01T10:00:00Z"⟩ : ToolCall),
       ⟨"Edit", "", "2025-01-01T10:00:00Z"⟩,
       ⟨"Write", "", "2025-01-01T10:00:02Z"⟩]
      [⟨"Edit", "", "2025-01-01T10:00:00Z"⟩,
       ⟨"Read", "", "2025-01-01T10:00:00Z"⟩,
       ⟨"Write", "", "2025-01-01T10:00:02Z"⟩] ∧
    extract_tool_sequences
      [⟨"Read", "", "2025-01-01T10:00:00Z"⟩,
       ⟨"Edit", "", "2025-01-01T10:00:00Z"⟩,
       ⟨"Write", "", "2025-01-01T10:00:02Z"⟩] ≠
    extract_tool_sequences
      [⟨"Edit", "", "2025-01-01T10:00:00Z"⟩,
       ⟨"Read", "", "2025-01-01T10:00:00Z"⟩,
       ⟨"Write", "", "2025-01-01T10:00:02Z"⟩] := by
  constructor
  · exact List.Perm.swap _ _ _
  · decide

/-- Claim C7 (amended): `extract_tool_sequences` is invariant under any
permutation of its input provided the timestamps are pairwise distinct; with
tied timestamps the stable sort preserves the original relative order, so
permutation invariance holds only up to ties. -/
theorem extract_tool_sequences_perm_invariant (l1 l2 : List ToolCall)
    (hperm : l1.Perm l2) (hnd : (l1.map ToolCall.timestamp).Nodup) :
    extract_tool_sequences l1 = extract_tool_sequences l2 := by
  have hs1 : (sortByTimestamp l1).Sorted tsLE := List.sorted_insertionSort tsLE l1
  have hs2 : (sortByTimestamp l2).Sorted tsLE := List.sorted_insertionSort tsLE l2
  have hp : (sortByTimestamp l1).Perm (sortByTimestamp l2) :=
    ((List.perm_insertionSort tsLE l1).trans hperm).trans
      (List.perm_insertionSort tsLE l2).symm
  have hnd' : ((sortByTimestamp l1).map ToolCall.timestamp).Nodup :=
    (List.Perm.map ToolCall.timestamp
      (List.perm_insertionSort tsLE l1)).nodup_iff.mpr hnd
  have heq : sortByTimestamp l1 = sortByTimestamp l2 :=
    sorted_perm_eq_of_nodup_ts _ _ hp hs1 hs2 hnd'
  unfold extract_tool_sequences normalizedSeq
  rw [heq]

/-- Claim C7 witness: the amended invariance applied to the out-of-order
session of the ordering test. -/
theorem extract_tool_sequences_perm_invariant_witness :
    extract_tool_sequences
      [⟨"Write", "", "2025-01-01T10:00:02Z"⟩,
       ⟨"Read", "", "2025-01-01T10:00:00Z"⟩,
       ⟨"Edit", "", "2025-01-01T10:00:01Z"⟩] =
    extract_tool_sequences
      [⟨"Read", "", "2025-01-01T10:00:00Z"⟩,
       ⟨"Edit", "", "2025-01-01T10:00:01Z"⟩,
       ⟨"Write", "", "2025-01-01T10:00:02Z"⟩] :=
  extract_tool_sequences_perm_invariant _ _ (by decide) (by decide)

/-- Association-list lookup of a candidate sequence key (the Python dict of
`merge_overlapping_sequences` embedded in insertion order). -/
def lookupSeq (seqs : List (List String × RawPattern)) (k : List String) :
    Option RawPattern :=
  (seqs.find? (fun kv => kv.1 == k)).map (fun kv => kv.2)

/-- Two sequence keys chain when dropping the first token of the first
yields the second minus its last token (tail/head overlap of length
`len-1`, for keys of equal length). -/
def chains (a b : List String) : Bool :=
  (a.drop 1 == b.dropLast) && (a.length == b.length)

/-- The 50% closeness ratio: the smaller occurrence count must be at least
half the larger. -/
def closeCounts (o1 o2 : Nat) : Bool :=
  decide (max o1 o2 ≤ 2 * min o1 o2)

/-- Session-set overlap between two candidate patterns. -/
def sessionsOverlap (p q : RawPattern) : Bool :=
  decide ((p.sessions ∩ q.sessions).Nonempty)

/-- The candidate merge relation of the merger: the keys chain in either
direction, the occurrence counts are close, and the session sets overlap. -/
def mergeEdge (seqs : List (List String × RawPattern))
    (k1 k2 : List String) : Bool :=
  match lookupSeq seqs k1, lookupSeq seqs k2 with
  | some p, some q =>
    (chains k1 k2 || chains k2 k1) &&
      closeCounts p.occurrences q.occurrences && sessionsOverlap p q
  | _, _ => false

/-- One step of connected-component accumulation: the new key absorbs every
existing component it is connected to. -/
def addKeyToComps (edge : List String → List String → Bool)
    (comps : List (List (List String))) (k : List String) :
    List (List (List String)) :=
  (k :: (comps.filter (fun comp => comp.any (fun k2 => edge k k2))).join) ::
    comps.filter (fun comp => !(comp.any (fun k2 => edge k k2)))

/-- Connected components of the merge graph over the candidate keys. -/
def components (edge : List String → List String → Bool)
    (keys : List (List String)) : List (List (List String)) :=
  keys.foldl (addKeyToComps edge) []

/-- The chain-building start member: one into which no other member chains
(falling back to the first member for cyclic components). -/
def chainStart (comp : List (List String)) : List String :=
  (comp.find? (fun k =>
    !(comp.any (fun j => (j != k) && chains j k)))).getD (comp.headD [])

/-- Greedy chain reconstruction: repeatedly append the non-overlapping
suffix (the last token) of an unused member that the current member chains
into. -/
def buildChainAux : Nat → List (List String) → List String → List String →
    List String
  | 0, _, _, acc => acc
  | fuel + 1, members, cur, acc =>
    match members.find? (fun m => chains cur m) with
    | some m => buildChainAux fuel (members.erase m) m (acc ++ [m.getLastD ""])
    | none => acc

/-- The single longest token chain of a connected component. -/
def buildChain (comp : List (List String)) : List String :=
  buildChainAux comp.length (comp.erase (chainStart comp)) (chainStart comp)
    (chainStart comp)

/-- Minimum of two optional ISO8601 timestamps (lexicographic). -/
def optMinTs : Option String → Option String → Option String
  | none, y => y
  | some a, none => some a
  | some a, some b => some (if a.data ≤ b.data then a else b)

/-- Maximum of two optional ISO8601 timestamps (lexicographic). -/
def optMaxTs : Option String → Option String → Option String
  | none, y => y
  | some a, none => some a
  | some a, some b => some (if a.data ≤ b.data then b else a)

/-- The merged pattern of a component: key is the chained tokens joined by
" → ", occurrences the minimum over members, session/project sets the
unions, first/last seen the min/max. -/
def mergePatterns (tokens : List String) : List RawPattern → RawPattern
  | [] =>
    { pattern_type := "tool_sequence",
      pattern_key := String.intercalate " → " tokens,
      occurrences := 0, sessions := ∅, projects := ∅,
      first_seen := none, last_seen := none, examples := [] }
  | p :: ps =>
    { pattern_type := "tool_sequence",
      pattern_key := String.intercalate " → " tokens,
      occurrences := ps.foldl (fun acc q => min acc q.occurrences) p.occurrences,
      sessions := ps.foldl (fun acc q => acc ∪ q.sessions) p.sessions,
      projects := ps.foldl (fun acc q => acc ∪ q.projects) p.projects,
      first_seen := ps.foldl (fun acc q => optMinTs acc q.first_seen) p.first_seen,
      last_seen := ps.foldl (fun acc q => optMaxTs acc q.last_seen) p.last_seen,
      examples := ps.foldl (fun acc q => acc ++ q.examples) p.examples }

/-- Modelled from the spec: `merge_overlapping_sequences` of the analyzer's
pattern module (`analyzer/patterns.py` is absent from the sources).
Qualifying chainable/close/overlapping pairs form edges of an undirected
graph over the candidate keys; each multi-member connected component is
replaced by one merged pattern built over its reconstructed token chain,
and singleton components pass through unchanged. -/
def merge_overlapping_sequences (seqs : List (List String × RawPattern)) :
    List RawPattern :=
  (components (mergeEdge seqs) (seqs.map Prod.fst)).map (fun comp =>
    match comp with
    | [k] => (lookupSeq seqs k).getD (mergePatterns [] [])
    | _ => mergePatterns (buildChain comp) (comp.filterMap (lookupSeq seqs)))

/-- A string is determined by its character data. -/
theorem string_data_inj {s t : String} (h : s.data = t.data) : s = t :=
  congrArg String.mk h

/-- The closeness ratio test is symmetric. -/
theorem closeCounts_comm (x y : Nat) : closeCounts x y = closeCounts y x := by
  unfold closeCounts
  rw [Nat.max_comm, Nat.min_comm]

/-- Session overlap is symmetric. -/
theorem sessionsOverlap_comm (p q : RawPattern) :
    sessionsOverlap p q = sessionsOverlap q p := by
  unfold sessionsOverlap
  rw [Finset.inter_comm]

/-- Timestamp minimum is commutative. -/
theorem optMinTs_comm (x y : Option String) : optMinTs x y = optMinTs y x := by
  cases x with
  | none => cases y <;> rfl
  | some a =>
    cases y with
    | none => rfl
    | some b =>
      simp only [optMinTs, Option.some.injEq]
      rcases le_or_lt a.data b.data with h | h
      · rcases le_or_lt b.data a.data with h2 | h2
        · have : a = b := string_data_inj (le_antisymm h h2)
          subst this
          rfl
        · rw [if_pos h, if_neg (not_le.mpr h2)]
      · rw [if_neg (not_le.mpr h), if_pos (le_of_lt h)]

/-- Timestamp maximum is commutative. -/
theorem optMaxTs_comm (x y : Option String) : optMaxTs x y = optMaxTs y x := by
  cases x with
  | none => cases y <;> rfl
  | some a =>
    cases y with
    | none => rfl
    | some b =>
      simp only [optMaxTs, Option.some.injEq]
      rcases le_or_lt a.data b.data with h | h
      · rcases le_or_lt b.data a.data with h2 | h2
        · have : a = b := string_data_inj (le_antisymm h h2)
          subst this
          rfl
        · rw [if_pos h, if_neg (not_le.mpr h2)]
      · rw [if_neg (not_le.mpr h), if_pos (le_of_lt h)]

/-- Evaluation of the merger on a two-entry map whose keys chain forward
only and whose patterns pass the closeness and overlap tests: one merged
pattern over the chained tokens, aggregated over the members in component
order. -/
theorem merge_two_entry_chained_eval (a b c d : String) (P1 P2 : RawPattern)
    (hk : ([a, b, c] : List String) ≠ [b, c, d])
    (hrev : chains [b, c, d] [a, b, c] = false)
    (hclose : closeCounts P1.occurrences P2.occurrences = true)
    (hover : sessionsOverlap P1 P2 = true) :
    merge_overlapping_sequences [([a, b, c], P1), ([b, c, d], P2)] =
      [mergePatterns [a, b, c, d] [P2, P1]] := by
  have hbne : (([a, b, c] : List String) == [b, c, d]) = false :=
    beq_eq_false_iff_ne.mpr hk
  have hbne' : (([b, c, d] : List String) == [a, b, c]) = false :=
    beq_eq_false_iff_ne.mpr (Ne.symm hk)
  have hch : chains [a, b, c] [b, c, d] = true := by
    simp [chains]
  have hl1 : lookupSeq [([a, b, c], P1), ([b, c, d], P2)] [a, b, c] = some P1 := by
    unfold lookupSeq
    rw [List.find?_cons_of_pos]
    · rfl
    · exact beq_self_eq_true _
  have hl2 : lookupSeq [([a, b, c], P1), ([b, c, d], P2)] [b, c, d] = some P2 := by
    unfold lookupSeq
    rw [List.find?_cons_of_neg, List.find?_cons_of_pos]
    · rfl
    · exact beq_self_eq_true _
    · simp [hbne]
  have hedge : mergeEdge [([a, b, c], P1), ([b, c, d], P2)] [b, c, d]
      [a, b, c] = true := by
    unfold mergeEdge
    rw [hl1, hl2, hrev, hch]
    show ((false || true) && closeCounts P2.occurrences P1.occurrences &&
      sessionsOverlap P2 P1) = true
    rw [closeCounts_comm, hclose, sessionsOverlap_comm, hover]
    rfl
  have hcomps : components
      (mergeEdge [([a, b, c], P1), ([b, c, d], P2)]) [[a, b, c], [b, c, d]] =
      [[[b, c, d], [a, b, c]]] := by
    unfold components
    show addKeyToComps _ (addKeyToComps _ [] [a, b, c]) [b, c, d] = _
    rw [show addKeyToComps (mergeEdge [([a, b, c], P1), ([b, c, d], P2)]) []
      [a, b, c] = [[[a, b, c]]] from rfl]
    unfold addKeyToComps
    simp [hedge]
  have hstart : chainStart [[b, c, d], [a, b, c]] = [a, b, c] := by
    unfold chainStart
    rw [List.find?_cons_of_neg, List.find?_cons_of_pos]
    · rfl
    · simp [hch, hbne, hbne', hrev]
    · simp [hch, hbne, hbne', hrev]
      intro h1 h2 h3
      exact hk (by rw [h1, h2, h3])
  have herase : [[b, c, d], [a, b, c]].erase [a, b, c] = [[b, c, d]] := by
    simp [List.erase_cons, hbne']
  have hchain : buildChain [[b, c, d], [a, b, c]] = [a, b, c, d] := by
    unfold buildChain
    rw [hstart, herase]
    simp [buildChainAux, hch, List.find?]
  have hfm : [[b, c, d], [a, b, c]].filterMap
      (lookupSeq [([a, b, c], P1), ([b, c, d], P2)]) = [P2, P1] := by
    simp [List.filterMap_cons, hl1, hl2]
  unfold merge_overlapping_sequences
  rw [show ([([a, b, c], P1), ([b, c, d], P2)].map Prod.fst) =
    [[a, b, c], [b, c, d]] from rfl]
  rw [hcomps]
  show [mergePatterns (buildChain [[b, c, d], [a, b, c]])
      ([[b, c, d], [a, b, c]].filterMap
        (lookupSeq [([a, b, c], P1), ([b, c, d], P2)]))] = _
  rw [hchain, hfm]

/-- Claim C1: a two-entry candidate map whose keys chain (tail of the first
equal to head of the second), whose counts pass the 50% closeness ratio and
whose session sets overlap is replaced by exactly one merged pattern: key
the chained tokens joined by " → ", occurrences the minimum (not sum),
sessions/projects the unions, first/last seen the min/max across the two
members. -/
theorem merge_overlapping_sequences_merges (a b c d : String)
    (P1 P2 : RawPattern)
    (hk : ([a, b, c] : List String) ≠ [b, c, d])
    (hrev : chains [b, c, d] [a, b, c] = false)
    (hclose : closeCounts P1.occurrences P2.occurrences = true)
    (hover : sessionsOverlap P1 P2 = true) :
    (merge_overlapping_sequences [([a, b, c], P1), ([b, c, d], P2)]).length
      = 1 ∧
    ∀ m ∈ merge_overlapping_sequences [([a, b, c], P1), ([b, c, d], P2)],
      m.pattern_type = "tool_sequence" ∧
      m.pattern_key = String.intercalate " → " [a, b, c, d] ∧
      m.occurrences = min P1.occurrences P2.occurrences ∧
      m.sessions = P1.sessions ∪ P2.sessions ∧
      m.projects = P1.projects ∪ P2.projects ∧
      m.first_seen = optMinTs P1.first_seen P2.first_seen ∧
      m.last_seen = optMaxTs P1.last_seen P2.last_seen := by
  have hmain := merge_two_entry_chained_eval a b c d P1 P2 hk hrev hclose hover
  constructor
  · rw [hmain]
    rfl
  · intro m hm
    rw [hmain, List.mem_singleton] at hm
    subst hm
    refine ⟨rfl, rfl, ?_, ?_, ?_, ?_, ?_⟩
    · show min P2.occurrences P1.occurrences = _
      exact Nat.min_comm _ _
    · show P2.sessions ∪ P1.sessions = _
      exact Finset.union_comm _ _
    · show P2.projects ∪ P1.projects = _
      exact Finset.union_comm _ _
    · show optMinTs P2.first_seen P1.first_seen = _
      exact optMinTs_comm _ _
    · show optMaxTs P2.last_seen P1.last_seen = _
      exact optMaxTs_comm _ _

/-- The test pattern for (A,B,C): 10 occurrences in sessions s1, s2. -/
def seqP1 : RawPattern := mkPattern 10 {"s1", "s2"} {"p1"}

/-- The test pattern for (B,C,D): 10 occurrences in the same sessions. -/
def seqP2 : RawPattern := mkPattern 10 {"s1", "s2"} {"p1"}

/-- Claim C1 witness: the merge specification applied to the concrete test
input: exactly one merged pattern with key "A → B → C → D" and the minimum
occurrence count. -/
theorem merge_overlapping_sequences_merges_witness :
    (merge_overlapping_sequences
      [(["A", "B", "C"], seqP1), (["B", "C", "D"], seqP2)]).length = 1 ∧
    ((merge_overlapping_sequences
      [(["A", "B", "C"], seqP1), (["B", "C", "D"], seqP2)]).headD
        (mergePatterns [] [])).pattern_key = "A → B → C → D" ∧
    ((merge_overlapping_sequences
      [(["A", "B", "C"], seqP1), (["B", "C", "D"], seqP2)]).headD
        (mergePatterns [] [])).occurrences = 10 :=
  ⟨(merge_overlapping_sequences_merges "A" "B" "C" "D" seqP1 seqP2
      (by decide) (by decide) (by decide) (by decide)).1,
   (((merge_overlapping_sequences_merges "A" "B" "C" "D" seqP1 seqP2
      (by decide) (by decide) (by decide) (by decide)).2 _
        (by decide)).2.1).trans (by decide),
   (((merge_overlapping_sequences_merges "A" "B" "C" "D" seqP1 seqP2
      (by decide) (by decide) (by decide) (by decide)).2 _
        (by decide)).2.2.1).trans (by decide)⟩

/-- Claim C2: a two-entry candidate map with chainable keys whose closeness
ratio fails or whose session sets are disjoint is not merged: both patterns
come back as two separate, unchanged output patterns. -/
theorem merge_overlapping_sequences_no_merge (a b c d : String)
    (P1 P2 : RawPattern)
    (hk : ([a, b, c] : List String) ≠ [b, c, d])
    (hfail : closeCounts P1.occurrences P2.occurrences = false ∨
      P1.sessions ∩ P2.sessions = ∅) :
    merge_overlapping_sequences [([a, b, c], P1), ([b, c, d], P2)] =
      [P2, P1] := by
  have hbne : (([a, b, c] : List String) == [b, c, d]) = false :=
    beq_eq_false_iff_ne.mpr hk
  have hl1 : lookupSeq [([a, b, c], P1), ([b, c, d], P2)] [a, b, c] = some P1 := by
    unfold lookupSeq
    rw [List.find?_cons_of_pos]
    · rfl
    · exact beq_self_eq_true _
  have hl2 : lookupSeq [([a, b, c], P1), ([b, c, d], P2)] [b, c, d] = some P2 := by
    unfold lookupSeq
    rw [List.find?_cons_of_neg, List.find?_cons_of_pos]
    · rfl
    · exact beq_self_eq_true _
    · simp [hbne]
  have hedgeF : mergeEdge [([a, b, c], P1), ([b, c, d], P2)] [b, c, d]
      [a, b, c] = false := by
    unfold mergeEdge
    rw [hl1, hl2]
    show ((chains [b, c, d] [a, b, c] || chains [a, b, c] [b, c, d]) &&
      closeCounts P2.occurrences P1.occurrences &&
      sessionsOverlap P2 P1) = false
    rcases hfail with hcf | hdisj
    · rw [closeCounts_comm, hcf]
      simp
    · have hso : sessionsOverlap P2 P1 = false := by
        rw [sessionsOverlap_comm]
        unfold sessionsOverlap
        rw [hdisj]
        simp
      rw [hso]
      simp
  have hcomps : components
      (mergeEdge [([a, b, c], P1), ([b, c, d], P2)]) [[a, b, c], [b, c, d]] =
      [[[b, c, d]], [[a, b, c]]] := by
    unfold components
    show addKeyToComps _ (addKeyToComps _ [] [a, b, c]) [b, c, d] = _
    rw [show addKeyToComps (mergeEdge [([a, b, c], P1), ([b, c, d], P2)]) []
      [a, b, c] = [[[a, b, c]]] from rfl]
    unfold addKeyToComps
    simp [hedgeF]
  unfold merge_overlapping_sequences
  rw [show ([([a, b, c], P1), ([b, c, d], P2)].map Prod.fst) =
    [[a, b, c], [b, c, d]] from rfl]
  rw [hcomps]
  show [(lookupSeq [([a, b, c], P1), ([b, c, d], P2)] [b, c, d]).getD
      (mergePatterns [] []),
    (lookupSeq [([a, b, c], P1), ([b, c, d], P2)] [a, b, c]).getD
      (mergePatterns [] [])] = _
  rw [hl1, hl2]
  rfl

/-- The low-count test pattern for (B,C,D): 2 occurrences in session s1. -/
def seqP2low : RawPattern := mkPattern 2 {"s1"} {"p1"}

/-- Claim C2 witness: the count-divergence rejection applied to the concrete
test input (10 occurrences vs 2): two separate, unchanged patterns. -/
theorem merge_overlapping_sequences_no_merge_witness :
    merge_overlapping_sequences
      [(["A", "B", "C"], seqP1), (["B", "C", "D"], seqP2low)] =
      [seqP2low, seqP1] :=
  merge_overlapping_sequences_no_merge "A" "B" "C" "D" seqP1 seqP2low
    (by decide) (Or.inl (by decide))

/-- The RawPattern invariant stated by the spec's data model:
`len(sessions) <= occurrences` and `len(projects) <= len(sessions)`. -/
def invariantHolds (p : RawPattern) : Prop :=
  p.sessions.card ≤ p.occurrences ∧ p.projects.card ≤ p.sessions.card

instance (p : RawPattern) : Decidable (invariantHolds p) :=
  inferInstanceAs (Decidable (_ ∧ _))

/-- Modelled from the spec: the empty pattern created when a normalized key
is first seen during a detection pass (section 3 lifecycle). -/
def emptyPattern (ptype key : String) : RawPattern :=
  { pattern_type := ptype, pattern_key := key, occurrences := 0,
    sessions := ∅, projects := ∅, first_seen := none, last_seen := none,
    examples := [] }

/-- Modelled from the spec: one accumulation step of the Pattern Detector
(section 4.4): the counter is incremented and the observing session and its
project are unioned into the identifier sets. -/
def recordOccurrence (p : RawPattern) (sid pid : String) : RawPattern :=
  { p with occurrences := p.occurrences + 1,
           sessions := insert sid p.sessions,
           projects := insert pid p.projects }

/-- The pattern accumulated over a run's occurrence stream (pairs of
session id and its project id). -/
def accumulate (ptype key : String) (occs : List (String × String)) :
    RawPattern :=
  occs.foldl (fun p o => recordOccurrence p o.1 o.2) (emptyPattern ptype key)

/-- The two member patterns that break the invariant after merging: each
satisfies it on its own. -/
def invP1 : RawPattern := mkPattern 6 {"s1", "s2", "s3", "s4", "s5", "s6"} {"p1"}

/-- The second member: 5 occurrences across 5 sessions, overlapping at s6. -/
def invP2 : RawPattern := mkPattern 5 {"s6", "s7", "s8", "s9", "s10"} {"p1"}

/-- Claim C9 counterexample: both candidate patterns satisfy
`len(sessions) <= occurrences` and `len(projects) <= len(sessions)` and they
merge (chained keys, 2*5 >= 6 closeness, overlap at s6), but the merged
output pattern has 10 sessions and only `min(6,5) = 5` occurrences, so the
first inequality fails on the merger's output. -/
theorem merge_invariant_counterexample :
    invariantHolds invP1 ∧ invariantHolds invP2 ∧
    (merge_overlapping_sequences
      [(["A", "B", "C"], invP1), (["B", "C", "D"], invP2)]).length = 1 ∧
    ((merge_overlapping_sequences
      [(["A", "B", "C"], invP1), (["B", "C", "D"], invP2)]).headD
        (mergePatterns [] [])) ∈
      merge_overlapping_sequences
        [(["A", "B", "C"], invP1), (["B", "C", "D"], invP2)] ∧
    ¬ invariantHolds
      ((merge_overlapping_sequences
        [(["A", "B", "C"], invP1), (["B", "C", "D"], invP2)]).headD
          (mergePatterns [] [])) := by
  refine ⟨by decide, by decide, by decide, by decide, by decide⟩

/-- Claim C9 (amended): every pattern produced by the detector's
accumulation phase satisfies both inequalities, provided each occurrence's
project is determined by its session (each session belongs to one project);
the merger's output patterns need not satisfy
`len(sessions) <= occurrences`, since a merged pattern takes the minimum of
the members' occurrence counts but the union of their session sets. -/
theorem accumulate_invariant (ptype key : String)
    (occs : List (String × String)) (f : String → String)
    (hf : ∀ o ∈ occs, o.2 = f o.1) :
    invariantHolds (accumulate ptype key occs) := by
  suffices h : ∀ (l : List (String × String)) (p : RawPattern),
      (∀ o ∈ l, o.2 = f o.1) → p.sessions.card ≤ p.occurrences →
      p.projects = p.sessions.image f →
      (l.foldl (fun p o => recordOccurrence p o.1 o.2) p).sessions.card ≤
        (l.foldl (fun p o => recordOccurrence p o.1 o.2) p).occurrences ∧
      (l.foldl (fun p o => recordOccurrence p o.1 o.2) p).projects =
        (l.foldl (fun p o => recordOccurrence p o.1 o.2) p).sessions.image f by
    have hres := h occs (emptyPattern ptype key) hf (by simp [emptyPattern])
      (by simp [emptyPattern])
    unfold accumulate
    refine ⟨hres.1, ?_⟩
    rw [hres.2]
    exact Finset.card_image_le
  intro l
  induction l with
  | nil =>
    intro p _ h1 h2
    exact ⟨h1, h2⟩
  | cons o t ih =>
    intro p hl h1 h2
    have ho : o.2 = f o.1 := hl o (List.mem_cons_self o t)
    rw [List.foldl_cons]
    apply ih
    · intro x hx
      exact hl x (List.mem_cons_of_mem o hx)
    · show (insert o.1 p.sessions).card ≤ p.occurrences + 1
      calc (insert o.1 p.sessions).card ≤ p.sessions.card + 1 :=
            Finset.card_insert_le _ _
        _ ≤ p.occurrences + 1 := Nat.add_le_add_right h1 1
    · show insert o.2 p.projects = (insert o.1 p.sessions).image f
      rw [Finset.image_insert, h2, ho]

/-- Claim C9 witness: the accumulation invariant at a concrete occurrence
stream (three occurrences, two sessions, one project). -/
theorem accumulate_invariant_witness :
    invariantHolds (accumulate "tool_sequence" "k"
      [("s1", "p1"), ("s2", "p1"), ("s1", "p1")]) :=
  accumulate_invariant "tool_sequence" "k"
    [("s1", "p1"), ("s2", "p1"), ("s1", "p1")] (fun _ => "p1") (by decide)
